import Mathlib

/-!
Shallow embedding of `doozerlib/cli/release_gen_payload.py` (doozer).

The remote Brew/koji query service is modelled by oracle functions:
`bt : Nat → List String` gives the tag names of a build id
(`brew.get_builds_tags`), and `rpmsOf : Nat → List Rpm` gives the rpm
records contained in an archive id (`brew.list_image_rpms`).  Batched
multicalls in the source return, for each queried id, exactly the
oracle's answer for that id, so the batching itself is latency-only
and invisible to the functional model.

Python string/dict primitives are embedded explicitly:
`pyStartsWith`/`pyEndsWith`/`pyIn` model `str.startswith`, `str.endswith`
and the `in` substring test; `dlookup`/`dinsert` model `dict` access and
item assignment (insertion-ordered, update-in-place).
-/

namespace Doozer

/-- `listStartsWith p l` holds when `p` is an initial segment of `l`. -/
def listStartsWith : List Char → List Char → Bool
  | [], _ => true
  | _ :: _, [] => false
  | a :: as, b :: bs => decide (a = b) && listStartsWith as bs

/-- `listHasSub sub l`: `sub` occurs as a contiguous run inside `l`. -/
def listHasSub (sub : List Char) : List Char → Bool
  | [] => sub.isEmpty
  | c :: rest => listStartsWith sub (c :: rest) || listHasSub sub rest

/-- Python `s.startswith(p)`. -/
def pyStartsWith (s p : String) : Bool :=
  listStartsWith p.data s.data

/-- Python `s.endswith(p)`. -/
def pyEndsWith (s p : String) : Bool :=
  listStartsWith p.data.reverse s.data.reverse

/-- Python `sub in s` (substring test). -/
def pyIn (sub s : String) : Bool :=
  listHasSub sub.data s.data

/-- Python dict lookup (`d[k]` / `d.get(k)`) on an insertion-ordered
association list. -/
def dlookup {α β : Type} [DecidableEq α] (k : α) : List (α × β) → Option β
  | [] => none
  | p :: rest => if p.1 = k then some p.2 else dlookup k rest

/-- Python dict item assignment `d[k] = v`: update in place if the key is
present, else append at the end (insertion order preserved). -/
def dinsert {α β : Type} [DecidableEq α] (k : α) (v : β) : List (α × β) → List (α × β)
  | [] => [(k, v)]
  | p :: rest => if p.1 = k then (k, v) :: rest else p :: dinsert k v rest

/-- Brew build record, as used by `find_embargoed_builds`
(`build["id"]`, `build["release"]`, `build["version"]`). -/
structure Build where
  id : Nat
  version : String
  release : String
  deriving DecidableEq, Repr

/-- Brew rpm record (`rpm["build_id"]`, `rpm["release"]`). -/
structure Rpm where
  build_id : Nat
  release : String
  deriving DecidableEq, Repr

/-- Brew image archive record: `ar["id"]`, `ar["build_id"]`, `ar["arch"]`,
`ar["extra"]["docker"]["repositories"]` and the v2 manifest digest. -/
structure Archive where
  id : Nat
  build_id : Nat
  arch : String
  pullspecs : List String
  digest : String
  deriving DecidableEq, Repr

/-- The shipped check used in both `find_embargoed_builds` and
`has_unshipped_rpms`: a build is shipped when any of its Brew tags ends
with `-released`. -/
def shipped (bt : Nat → List String) (bid : Nat) : Bool :=
  (bt bid).any fun t => pyEndsWith t "-released"

/-- `has_unshipped_rpms(rpms, rpm_shipping_statuses, ...)`.
Returns (result, updated cache, build ids passed to the tag query).
The source returns `True` immediately when some rpm is cached as
not-shipped; otherwise it queries the tags of every uncached rpm in one
batch, caches the outcomes, and reports whether any was not shipped. -/
def has_unshipped_rpms (bt : Nat → List String) (rpms : List Rpm)
    (cache : List (Nat × Bool)) : Bool × List (Nat × Bool) × List Nat :=
  if rpms.any (fun r => match dlookup r.build_id cache with
                        | some false => true
                        | _ => false) then
    (true, cache, [])
  else
    let uncached := rpms.filter fun r => (dlookup r.build_id cache).isNone
    if uncached.isEmpty then
      (false, cache, [])
    else
      (uncached.any (fun r => !(shipped bt r.build_id)),
       uncached.foldl (fun c r => dinsert r.build_id (shipped bt r.build_id) c) cache,
       uncached.map fun r => r.build_id)

/-- The final loop of `find_embargoed_builds`: for each suspect archive,
filter its rpms to those with `.p1` in the release field and add the
archive's build id to the embargoed set when `has_unshipped_rpms` says so.
Also threads the shipping-status cache and accumulates the build ids
passed to the tag query. -/
def embargoLoop (bt : Nat → List String) (rpmsOf : Nat → List Rpm) :
    List Archive → List (Nat × Bool) → Finset Nat → Finset Nat × List (Nat × Bool) × List Nat
  | [], cache, emb => (emb, cache, [])
  | ar :: rest, cache, emb =>
    let suspected := (rpmsOf ar.id).filter fun r => pyIn ".p1" r.release
    let h := has_unshipped_rpms bt suspected cache
    let emb' := if h.1 then insert ar.build_id emb else emb
    let res := embargoLoop bt rpmsOf rest h.2.1 emb'
    (res.1, res.2.1, h.2.2 ++ res.2.2)

/-- First stage of `find_embargoed_builds`: candidate builds that carry no
Brew tag ending in `-released`. -/
def suspectsOf (bt : Nat → List String) (builds : List Build) : List Build :=
  builds.filter fun b => !(shipped bt b.id)

/-- Second stage: among unshipped suspects, those whose release string
ends with `.p1` are embargoed immediately. -/
def directEmbargoedOf (bt : Nat → List String) (builds : List Build) : Finset Nat :=
  (((suspectsOf bt builds).filter fun b => pyEndsWith b.release ".p1").map Build.id).toFinset

/-- The suspect archives scanned by the final stage: archives (from the
non-empty per-build archive lists) whose build id belongs to a `.p0`
suspect (an unshipped build not already directly embargoed). -/
def suspectArchivesOf (bt : Nat → List String) (builds : List Build)
    (archives_list : List (List Archive)) : List Archive :=
  let emb := directEmbargoedOf bt builds
  let suspects2 := (suspectsOf bt builds).filter fun b => !(decide (b.id ∈ emb))
  let sids := (suspects2.map Build.id).toFinset
  ((archives_list.filter fun ars => !ars.isEmpty).flatten).filter fun ar =>
    decide (ar.build_id ∈ sids)

/-- `find_embargoed_builds(builds, archives_list, ...)`: the returned set
of embargoed image build ids. -/
def find_embargoed_builds (bt : Nat → List String) (rpmsOf : Nat → List Rpm)
    (builds : List Build) (archives_list : List (List Archive)) : Finset Nat :=
  (embargoLoop bt rpmsOf (suspectArchivesOf bt builds archives_list) []
    (directEmbargoedOf bt builds)).1

/-- The rpm build ids passed to the shipped-tag query over one
`find_embargoed_builds` run (instrumentation of the same computation). -/
def embargoQueries (bt : Nat → List String) (rpmsOf : Nat → List Rpm)
    (builds : List Build) (archives_list : List (List Archive)) : List Nat :=
  (embargoLoop bt rpmsOf (suspectArchivesOf bt builds archives_list) []
    (directEmbargoedOf bt builds)).2.2

/-- The distinct rpm build ids whose release contains `.p1` among the
suspect builds' rpm records — the quantity the spec's cache claim counts. -/
def p1RpmIds (bt : Nat → List String) (rpmsOf : Nat → List Rpm)
    (builds : List Build) (archives_list : List (List Archive)) : Finset Nat :=
  (((suspectArchivesOf bt builds archives_list).map fun ar =>
      ((rpmsOf ar.id).filter fun r => pyIn ".p1" r.release).map Rpm.build_id).flatten).toFinset

/-- A value of the mirroring map:
`{'version': ..., 'release': ..., 'image_src': pullspecs[-1], 'digest': ...}`. -/
structure MEntry where
  version : String
  release : String
  image_src : String
  digest : String
  deriving DecidableEq, Repr

/-- The mirroring map: arch key → (imagestream tag name → entry), both
levels Python dicts in insertion order. -/
abbrev Mir : Type := List (String × List (String × MEntry))

/-- Error outcomes of the run: `valueError` models the raised `ValueError`
on an unrecognized digest, `fatal` the raised `DoozerFatalError` when the
dummy `cli` image is missing, `keyError` an uncaught Python `KeyError`
from an unguarded dict lookup. -/
inductive RunErr where
  | valueError (digest : String)
  | fatal (key : String)
  | keyError (key : String)
  deriving DecidableEq, Repr

/-- One image process-loop input: the image's short name and its
positionally aligned latest build and archive list (`none` / `[]` when
Brew returned nothing). -/
structure ImgInput where
  name : String
  build : Option Build
  archives : List Archive
  deriving DecidableEq, Repr

/-- State threaded through the image loop: the mirroring map plus the
names recorded as failures and successes. -/
structure RState where
  mirroring : Mir
  failures : List String
  successes : List String
  deriving DecidableEq, Repr

/-- `mirroring.setdefault(arch, {})[tag_name] = v`. -/
def msetT (mir : Mir) (arch tagName : String) (v : MEntry) : Mir :=
  dinsert arch (dinsert tagName v ((dlookup arch mir).getD [])) mir

/-- The pullspec validity test of the archive loop:
`not pullspecs or ":" not in pullspecs[-1]` fails this check. -/
def goodPullspec (ar : Archive) : Bool :=
  match ar.pullspecs.getLast? with
  | none => false
  | some last => pyIn ":" last

/-- The imagestream tag name: the image short name with a leading `ose-`
stripped. -/
def tagNameOf (name : String) : String :=
  if pyStartsWith name "ose-" then name.drop 4 else name

/-- The body of one archive-loop iteration after the validity checks: add
the entry to the public map unless the build is embargoed, and to the
`-priv` map when public_upstreams is configured. -/
def archiveStep (pub : Bool) (emb : Finset Nat) (b : Build) (tagName : String)
    (mir : Mir) (ar : Archive) : Mir :=
  let v : MEntry := ⟨b.version, b.release, (ar.pullspecs.getLast?).getD "", ar.digest⟩
  let mir1 := if decide (b.id ∈ emb) then mir else msetT mir ar.arch tagName v
  if pub then msetT mir1 (ar.arch ++ "-priv") tagName v else mir1

/-- The `for archive in archives` loop of one image: `Bool` in the result
records whether the loop broke with a pullspec error; a bad digest raises
(aborts the whole run). -/
def processArchives (pub : Bool) (emb : Finset Nat) (b : Build) (tagName : String) :
    List Archive → Mir → Except RunErr (Mir × Bool)
  | [], mir => .ok (mir, false)
  | ar :: rest, mir =>
    if !(goodPullspec ar) then .ok (mir, true)
    else if !(pyStartsWith ar.digest "sha256:") then .error (.valueError ar.digest)
    else processArchives pub emb b tagName rest (archiveStep pub emb b tagName mir ar)

/-- Processing of one image of the main loop: a missing build or empty
archive list is a recorded per-image failure, a pullspec error is a
recorded per-image failure, a digest error propagates as a raised error. -/
def processOne (pub : Bool) (emb : Finset Nat) (img : ImgInput) (st : RState) :
    Except RunErr RState :=
  match img.build with
  | none => .ok ⟨st.mirroring, st.failures ++ [img.name], st.successes⟩
  | some b =>
    if img.archives.isEmpty then
      .ok ⟨st.mirroring, st.failures ++ [img.name], st.successes⟩
    else
      match processArchives pub emb b (tagNameOf img.name) img.archives st.mirroring with
      | .error e => .error e
      | .ok (mir, true) => .ok ⟨mir, st.failures ++ [img.name], st.successes⟩
      | .ok (mir, false) => .ok ⟨mir, st.failures, st.successes ++ [img.name]⟩

/-- The main image loop of `release_gen_payload`: process the aligned
(image, build, archives) records in order; a raised error aborts the
whole loop. -/
def processImages (pub : Bool) (emb : Finset Nat) :
    List ImgInput → RState → Except RunErr RState
  | [], st => .ok st
  | img :: rest, st =>
    match processOne pub emb img st with
    | .error e => .error e
    | .ok st' => processImages pub emb rest st'

/-- The good-path insertion of a list of archives, used to describe what
`processArchives` does on a prefix of valid archives. -/
def insertEntries (pub : Bool) (emb : Finset Nat) (b : Build) (tagName : String)
    (ars : List Archive) (mir : Mir) : Mir :=
  ars.foldl (archiveStep pub emb b tagName) mir

/-- `build_dest_name(tag_name)` with the entry's digest supplied:
`quay.io/{orgrepo}:{digest with ":" replaced by "-"}`.  Python
`str.replace(":", "-")` with a one-character pattern is a character map. -/
def buildDestName (orgrepo digest : String) : String :=
  "quay.io/" ++ orgrepo ++ ":" ++ String.mk (digest.data.map fun c => if c = ':' then '-' else c)

/-- An imagestream tag spec entry
`{'name': ..., 'from': {'kind': 'DockerImage', 'name': ...}}`. -/
structure TagEntry where
  name : String
  fromKind : String
  fromName : String
  deriving DecidableEq, Repr

/-- The reference architecture key used for fallback substitution:
`'x86_64-priv' if private else 'x86_64'`. -/
def refKeyOf (key : String) : String :=
  if pyEndsWith key "-priv" then "x86_64-priv" else "x86_64"

/-- The native tag entries of one key: one per display tag of its map, in
map iteration order, each pointing at its own entry's destination. -/
def nativeTags (orgrepo : String) (m : List (String × MEntry)) : List TagEntry :=
  m.map fun p => ⟨p.1, "DockerImage", buildDestName orgrepo p.2.digest⟩

/-- The imagestream tag-list generation for one arch key of the mirroring
map: native tags, then the `cli` fallback policy (warning / fatal error
when `cli` is missing, substitute entries for reference tags otherwise).
Dict lookups that the source leaves unguarded surface as `keyError`. -/
def genTagList (orgrepo : String) (pub : Bool) (mirroring : Mir) (key : String) :
    Except RunErr (List TagEntry) :=
  match dlookup key mirroring with
  | none => .error (.keyError key)
  | some m =>
    match dlookup "cli" m with
    | none =>
      if pub && !(pyEndsWith key "-priv") then .ok (nativeTags orgrepo m)
      else .error (.fatal key)
    | some cliv =>
      match dlookup (refKeyOf key) mirroring with
      | none => .error (.keyError (refKeyOf key))
      | some refm =>
        let extra := (refm.map Prod.fst).filter fun t => !(decide (t ∈ m.map Prod.fst))
        .ok (nativeTags orgrepo m ++
          extra.map fun t => ⟨t, "DockerImage", buildDestName orgrepo cliv.digest⟩)

/-- Invariant of the rpm shipping-status cache: every cached value is the
answer the shipped-tag check would give. -/
def cacheOK (bt : Nat → List String) (cache : List (Nat × Bool)) : Prop :=
  ∀ k v, dlookup k cache = some v → v = shipped bt k

theorem dlookup_dinsert {α β : Type} [DecidableEq α] (m : List (α × β)) (k k' : α) (v : β) :
    dlookup k' (dinsert k v m) = if k' = k then some v else dlookup k' m := by
  induction m with
  | nil =>
    by_cases h : k' = k
    · simp [dinsert, dlookup, h]
    · have hkk' : ¬ k = k' := fun hc => h hc.symm
      simp [dinsert, dlookup, h, hkk']
  | cons p rest ih =>
    by_cases hp : p.1 = k
    · by_cases h : k' = k
      · simp [dinsert, dlookup, hp, h]
      · have hkk' : ¬ k = k' := fun hc => h hc.symm
        have hpk' : ¬ p.1 = k' := by rw [hp]; exact hkk'
        simp [dinsert, dlookup, hp, h, hkk', hpk']
    · by_cases hq : p.1 = k'
      · have h : ¬ k' = k := by intro hc; exact hp (hq.trans hc)
        simp [dinsert, dlookup, hp, hq, h]
      · simp [dinsert, dlookup, hp, hq, ih]

theorem dlookup_none {α β : Type} [DecidableEq α] {m : List (α × β)} {k : α}
    (h : dlookup k m = none) : ∀ p ∈ m, p.1 ≠ k := by
  induction m with
  | nil => intro p hp; cases hp
  | cons q rest ih =>
    intro p hp
    by_cases hq : q.1 = k
    · rw [dlookup, if_pos hq] at h; cases h
    · rw [dlookup, if_neg hq] at h
      rcases List.mem_cons.mp hp with hp | hp
      · rw [hp]; exact hq
      · exact ih h p hp

theorem cacheOK_nil (bt : Nat → List String) : cacheOK bt [] := by
  intro k v h
  simp [dlookup] at h

theorem cacheOK_foldl (bt : Nat → List String) (l : List Rpm) :
    ∀ cache, cacheOK bt cache →
      cacheOK bt (l.foldl (fun c r => dinsert r.build_id (shipped bt r.build_id) c) cache) := by
  induction l with
  | nil => intro cache hc; simpa using hc
  | cons r rest ih =>
    intro cache hc
    rw [List.foldl_cons]
    refine ih _ ?_
    intro k v h
    rw [dlookup_dinsert] at h
    by_cases hk : k = r.build_id
    · rw [if_pos hk] at h
      rw [hk]
      exact (Option.some_injective _ h).symm
    · rw [if_neg hk] at h
      exact hc k v h

theorem hu_result (bt : Nat → List String) (rpms : List Rpm)
    (cache : List (Nat × Bool)) (hc : cacheOK bt cache) :
    (has_unshipped_rpms bt rpms cache).1
      = rpms.any (fun r => !(shipped bt r.build_id)) := by
  unfold has_unshipped_rpms
  by_cases h1 : rpms.any (fun r => match dlookup r.build_id cache with
                                   | some false => true
                                   | _ => false) = true
  · rw [if_pos h1]
    rcases List.any_eq_true.mp h1 with ⟨r, hr, hrc⟩
    have hsf : shipped bt r.build_id = false := by
      rcases hdl : dlookup r.build_id cache with _ | v
      · rw [hdl] at hrc; cases hrc
      · cases v
        · exact (hc r.build_id false hdl).symm
        · rw [hdl] at hrc; cases hrc
    have : rpms.any (fun r => !(shipped bt r.build_id)) = true :=
      List.any_eq_true.mpr ⟨r, hr, by rw [hsf]; rfl⟩
    rw [this]
  · rw [if_neg h1]
    have hnofalse : ∀ r ∈ rpms, ∀ v, dlookup r.build_id cache = some v → v = true := by
      intro r hr v hv
      cases v
      · exact absurd (List.any_eq_true.mpr ⟨r, hr, by rw [hv]⟩) h1
      · rfl
    by_cases h2 : (rpms.filter fun r => (dlookup r.build_id cache).isNone).isEmpty = true
    · rw [if_pos h2]
      have hnil := List.isEmpty_iff.mp h2
      have : ∀ r ∈ rpms, (!(shipped bt r.build_id)) = false := by
        intro r hr
        rcases hdl : dlookup r.build_id cache with _ | v
        · have hrmem : r ∈ rpms.filter fun r => (dlookup r.build_id cache).isNone :=
            List.mem_filter.mpr ⟨hr, by rw [hdl]; rfl⟩
          rw [hnil] at hrmem
          cases hrmem
        · have hv := hnofalse r hr v hdl
          have := hc r.build_id v hdl
          rw [hv] at this
          rw [← this]
          rfl
      rcases hany : rpms.any (fun r => !(shipped bt r.build_id)) with _ | _
      · rfl
      · rcases List.any_eq_true.mp hany with ⟨r, hr, hrr⟩
        rw [this r hr] at hrr
        cases hrr
    · rw [if_neg h2]
      show (rpms.filter fun r => (dlookup r.build_id cache).isNone).any
          (fun r => !(shipped bt r.build_id)) = rpms.any (fun r => !(shipped bt r.build_id))
      rcases hany : rpms.any (fun r => !(shipped bt r.build_id)) with _ | _
      · refine (Bool.eq_false_iff).mpr ?_
        intro hfil
        rcases List.any_eq_true.mp hfil with ⟨r, hr, hrr⟩
        have hrm := (List.mem_filter.mp hr).1
        exact absurd (List.any_eq_true.mpr ⟨r, hrm, hrr⟩) (by rw [hany]; exact Bool.false_ne_true)
      · rcases List.any_eq_true.mp hany with ⟨r, hr, hrr⟩
        refine List.any_eq_true.mpr ?_
        refine ⟨r, List.mem_filter.mpr ⟨hr, ?_⟩, hrr⟩
        rcases hdl : dlookup r.build_id cache with _ | v
        · rfl
        · have hv := hnofalse r hr v hdl
          have hs := hc r.build_id v hdl
          rw [hv] at hs
          rw [← hs] at hrr
          cases hrr

theorem hu_cacheOK (bt : Nat → List String) (rpms : List Rpm)
    (cache : List (Nat × Bool)) (hc : cacheOK bt cache) :
    cacheOK bt (has_unshipped_rpms bt rpms cache).2.1 := by
  unfold has_unshipped_rpms
  by_cases h1 : rpms.any (fun r => match dlookup r.build_id cache with
                                   | some false => true
                                   | _ => false) = true
  · rw [if_pos h1]; exact hc
  · rw [if_neg h1]
    by_cases h2 : (rpms.filter fun r => (dlookup r.build_id cache).isNone).isEmpty = true
    · rw [if_pos h2]; exact hc
    · rw [if_neg h2]
      exact cacheOK_foldl bt _ cache hc

theorem hu_queries (bt : Nat → List String) (rpms : List Rpm)
    (cache : List (Nat × Bool)) :
    ∀ q ∈ (has_unshipped_rpms bt rpms cache).2.2, ∃ r ∈ rpms, r.build_id = q := by
  unfold has_unshipped_rpms
  by_cases h1 : rpms.any (fun r => match dlookup r.build_id cache with
                                   | some false => true
                                   | _ => false) = true
  · rw [if_pos h1]
    intro q hq
    cases hq
  · rw [if_neg h1]
    by_cases h2 : (rpms.filter fun r => (dlookup r.build_id cache).isNone).isEmpty = true
    · rw [if_pos h2]
      intro q hq
      cases hq
    · rw [if_neg h2]
      intro q hq
      rcases List.mem_map.mp hq with ⟨r, hr, hrq⟩
      exact ⟨r, (List.mem_filter.mp hr).1, hrq⟩

theorem embargoLoop_mem (bt : Nat → List String) (rpmsOf : Nat → List Rpm) (x : Nat) :
    ∀ (archives : List Archive) (cache : List (Nat × Bool)) (emb : Finset Nat),
      cacheOK bt cache →
      (x ∈ (embargoLoop bt rpmsOf archives cache emb).1 ↔
        x ∈ emb ∨ ∃ ar ∈ archives, ar.build_id = x ∧
          ∃ r ∈ rpmsOf ar.id, pyIn ".p1" r.release = true ∧ shipped bt r.build_id = false) := by
  intro archives
  induction archives with
  | nil =>
    intro cache emb _
    simp [embargoLoop]
  | cons ar rest ih =>
    intro cache emb hc
    have hstep := hu_result bt ((rpmsOf ar.id).filter fun r => pyIn ".p1" r.release) cache hc
    have hcache := hu_cacheOK bt ((rpmsOf ar.id).filter fun r => pyIn ".p1" r.release) cache hc
    have harP : (((rpmsOf ar.id).filter fun r => pyIn ".p1" r.release).any
          (fun r => !(shipped bt r.build_id)) = true)
        ↔ ∃ r ∈ rpmsOf ar.id, pyIn ".p1" r.release = true ∧ shipped bt r.build_id = false := by
      rw [List.any_eq_true]
      constructor
      · rintro ⟨r, hr, hrr⟩
        rcases List.mem_filter.mp hr with ⟨hrm, hrp⟩
        exact ⟨r, hrm, hrp, by rcases hs : shipped bt r.build_id with _|_ <;> simp [hs] at hrr ⊢⟩
      · rintro ⟨r, hrm, hrp, hrs⟩
        exact ⟨r, List.mem_filter.mpr ⟨hrm, hrp⟩, by rw [hrs]; rfl⟩
    show x ∈ (embargoLoop bt rpmsOf (ar :: rest) cache emb).1 ↔ _
    rw [embargoLoop]
    by_cases hfire : (has_unshipped_rpms bt
        ((rpmsOf ar.id).filter fun r => pyIn ".p1" r.release) cache).1 = true
    · simp only [hfire, if_true]
      rw [ih _ (insert ar.build_id emb) hcache]
      have hP := harP.mp (by rw [← hstep]; exact hfire)
      simp only [Finset.mem_insert, List.exists_mem_cons_iff]
      constructor
      · rintro ((hx | hx) | hx)
        · exact Or.inr (Or.inl ⟨hx.symm, hP⟩)
        · exact Or.inl hx
        · exact Or.inr (Or.inr hx)
      · rintro (hx | ⟨hbid, _⟩ | hx)
        · exact Or.inl (Or.inr hx)
        · exact Or.inl (Or.inl hbid.symm)
        · exact Or.inr hx
    · simp only [hfire, Bool.false_eq_true, if_false]
      rw [ih _ emb hcache]
      have hnP : ¬ ∃ r ∈ rpmsOf ar.id, pyIn ".p1" r.release = true ∧
          shipped bt r.build_id = false := by
        intro hP
        exact hfire (by rw [hstep]; exact harP.mpr hP)
      simp only [List.exists_mem_cons_iff]
      constructor
      · rintro (hx | hx)
        · exact Or.inl hx
        · exact Or.inr (Or.inr hx)
      · rintro (hx | ⟨_, hP⟩ | hx)
        · exact Or.inl hx
        · exact absurd hP hnP
        · exact Or.inr hx

theorem embargoLoop_queries (bt : Nat → List String) (rpmsOf : Nat → List Rpm) :
    ∀ (archives : List Archive) (cache : List (Nat × Bool)) (emb : Finset Nat),
      ∀ q ∈ (embargoLoop bt rpmsOf archives cache emb).2.2,
        ∃ ar ∈ archives, ∃ r ∈ rpmsOf ar.id, pyIn ".p1" r.release = true ∧ r.build_id = q := by
  intro archives
  induction archives with
  | nil =>
    intro cache emb q hq
    simp [embargoLoop] at hq
  | cons ar rest ih =>
    intro cache emb q hq
    rw [embargoLoop] at hq
    rcases List.mem_append.mp hq with hq | hq
    · rcases hu_queries bt _ cache q hq with ⟨r, hr, hrq⟩
      rcases List.mem_filter.mp hr with ⟨hrm, hrp⟩
      exact ⟨ar, List.mem_cons_self ar rest, r, hrm, hrp, hrq⟩
    · rcases ih _ _ q hq with ⟨ar', har', hrest⟩
      exact ⟨ar', List.mem_cons_of_mem ar har', hrest⟩

theorem shipped_eq_true_iff (bt : Nat → List String) (i : Nat) :
    shipped bt i = true ↔ ∃ t ∈ bt i, pyEndsWith t "-released" = true := by
  rw [shipped, List.any_eq_true]

theorem shipped_eq_false_iff (bt : Nat → List String) (i : Nat) :
    shipped bt i = false ↔ ∀ t ∈ bt i, pyEndsWith t "-released" = false := by
  constructor
  · intro h t ht
    rcases he : pyEndsWith t "-released" with _ | _
    · rfl
    · rw [(shipped_eq_true_iff bt i).mpr ⟨t, ht, he⟩] at h
      cases h
  · intro h
    rcases hs : shipped bt i with _ | _
    · rfl
    · rcases (shipped_eq_true_iff bt i).mp hs with ⟨t, ht, he⟩
      rw [h t ht] at he
      cases he

theorem mem_suspectsOf (bt : Nat → List String) (builds : List Build) (b : Build) :
    b ∈ suspectsOf bt builds ↔ b ∈ builds ∧ shipped bt b.id = false := by
  rw [suspectsOf, List.mem_filter, Bool.not_eq_true']

theorem mem_directEmbargoedOf (bt : Nat → List String) (builds : List Build) (x : Nat) :
    x ∈ directEmbargoedOf bt builds ↔
      ∃ b ∈ suspectsOf bt builds, pyEndsWith b.release ".p1" = true ∧ b.id = x := by
  rw [directEmbargoedOf, List.mem_toFinset, List.mem_map]
  constructor
  · rintro ⟨b, hb, hbx⟩
    rcases List.mem_filter.mp hb with ⟨hbs, hbp⟩
    exact ⟨b, hbs, hbp, hbx⟩
  · rintro ⟨b, hbs, hbp, hbx⟩
    exact ⟨b, List.mem_filter.mpr ⟨hbs, hbp⟩, hbx⟩

theorem mem_suspectArchivesOf (bt : Nat → List String) (builds : List Build)
    (archives_list : List (List Archive)) (ar : Archive) :
    ar ∈ suspectArchivesOf bt builds archives_list ↔
      ar ∈ archives_list.flatten ∧
        ∃ b ∈ suspectsOf bt builds,
          b.id ∉ directEmbargoedOf bt builds ∧ b.id = ar.build_id := by
  have hdef : suspectArchivesOf bt builds archives_list =
      ((archives_list.filter fun ars => !ars.isEmpty).flatten).filter fun ar =>
        decide (ar.build_id ∈ (((suspectsOf bt builds).filter fun b =>
          !(decide (b.id ∈ directEmbargoedOf bt builds))).map Build.id).toFinset) := rfl
  rw [hdef, List.mem_filter]
  constructor
  · rintro ⟨hmem, hdec⟩
    rcases List.mem_flatten.mp hmem with ⟨l, hl, hal⟩
    rw [decide_eq_true_eq, List.mem_toFinset, List.mem_map] at hdec
    rcases hdec with ⟨b, hb, hbid⟩
    rcases List.mem_filter.mp hb with ⟨hbs, hbne⟩
    rw [Bool.not_eq_true', decide_eq_false_iff_not] at hbne
    exact ⟨List.mem_flatten.mpr ⟨l, (List.mem_filter.mp hl).1, hal⟩, b, hbs, hbne, hbid⟩
  · rintro ⟨hmem, b, hbs, hbne, hbid⟩
    rcases List.mem_flatten.mp hmem with ⟨l, hl, hal⟩
    refine ⟨List.mem_flatten.mpr ⟨l, List.mem_filter.mpr ⟨hl, ?_⟩, hal⟩, ?_⟩
    · rcases l with _ | ⟨a, l'⟩
      · cases hal
      · rfl
    · rw [decide_eq_true_eq, List.mem_toFinset, List.mem_map]
      refine ⟨b, List.mem_filter.mpr ⟨hbs, ?_⟩, hbid⟩
      rw [Bool.not_eq_true', decide_eq_false_iff_not]
      exact hbne

theorem pyEndsWith_p0_not_p1 (s : String) (h : pyEndsWith s ".p0" = true) :
    pyEndsWith s ".p1" = false := by
  rw [pyEndsWith] at h ⊢
  rw [show (".p0" : String).data.reverse = ['0', 'p', '.'] from rfl] at h
  rw [show (".p1" : String).data.reverse = ['1', 'p', '.'] from rfl]
  rcases hr : s.data.reverse with _ | ⟨c, r⟩
  · rw [hr] at h
    cases h
  · rw [hr] at h
    rw [listStartsWith] at h ⊢
    simp only [Bool.and_eq_true] at h
    have hc0 : c = '0' := (of_decide_eq_true h.1).symm
    rw [hc0]
    rfl

theorem build_id_inj {builds : List Build} (hnd : (builds.map Build.id).Nodup)
    {b b' : Build} (hb : b ∈ builds) (hb' : b' ∈ builds) (h : b.id = b'.id) : b = b' :=
  List.inj_on_of_nodup_map hnd hb hb' h

/-- C1: a candidate build carrying any tag ending in `-released` is never
in the embargoed set returned by `find_embargoed_builds`, whatever its
release string and whatever the archives and rpm records contain. -/
theorem C1_released_never_embargoed (bt : Nat → List String) (rpmsOf : Nat → List Rpm)
    (builds : List Build) (archives_list : List (List Archive)) (b : Build)
    (hb : b ∈ builds) (ht : ∃ t ∈ bt b.id, pyEndsWith t "-released" = true) :
    b.id ∉ find_embargoed_builds bt rpmsOf builds archives_list := by
  have hship : shipped bt b.id = true := (shipped_eq_true_iff bt b.id).mpr ht
  intro hmem
  rw [find_embargoed_builds] at hmem
  rcases (embargoLoop_mem bt rpmsOf b.id _ [] _ (cacheOK_nil bt)).mp hmem with hx | hx
  · rcases (mem_directEmbargoedOf bt builds b.id).mp hx with ⟨b', hb', _, hbid⟩
    have := ((mem_suspectsOf bt builds b').mp hb').2
    rw [hbid, hship] at this
    cases this
  · rcases hx with ⟨ar, har, hbid, _⟩
    rcases (mem_suspectArchivesOf bt builds archives_list ar).mp har with ⟨_, b', hb', _, hbid'⟩
    have := ((mem_suspectsOf bt builds b').mp hb').2
    rw [hbid', hbid, hship] at this
    cases this

/-- C1 witness. -/
theorem C1_released_never_embargoed_witness :
    ((⟨1, "v", "5.el8.p1"⟩ : Build) ∈ [(⟨1, "v", "5.el8.p1"⟩ : Build)]
      ∧ ∃ t ∈ (fun _ : Nat => ["RHBA-2020:2713-released"]) 1,
          pyEndsWith t "-released" = true)
    ∧ (1 : Nat) ∉ find_embargoed_builds (fun _ => ["RHBA-2020:2713-released"]) (fun _ => [])
        [⟨1, "v", "5.el8.p1"⟩] [] :=
  ⟨⟨by decide, by decide⟩,
    C1_released_never_embargoed (fun _ => ["RHBA-2020:2713-released"]) (fun _ => [])
      [⟨1, "v", "5.el8.p1"⟩] [] ⟨1, "v", "5.el8.p1"⟩ (by decide) (by decide)⟩

/-- C2: a candidate build with no tag ending in `-released` whose release
string ends with `.p1` is always in the embargoed set, independent of the
archive lists and of the rpm records. -/
theorem C2_p1_always_embargoed (bt : Nat → List String) (rpmsOf : Nat → List Rpm)
    (builds : List Build) (archives_list : List (List Archive)) (b : Build)
    (hb : b ∈ builds) (ht : ∀ t ∈ bt b.id, pyEndsWith t "-released" = false)
    (hp1 : pyEndsWith b.release ".p1" = true) :
    b.id ∈ find_embargoed_builds bt rpmsOf builds archives_list := by
  have hship : shipped bt b.id = false := (shipped_eq_false_iff bt b.id).mpr ht
  rw [find_embargoed_builds]
  refine (embargoLoop_mem bt rpmsOf b.id _ [] _ (cacheOK_nil bt)).mpr (Or.inl ?_)
  exact (mem_directEmbargoedOf bt builds b.id).mpr
    ⟨b, (mem_suspectsOf bt builds b).mpr ⟨hb, hship⟩, hp1, rfl⟩

/-- C2 witness. -/
theorem C2_p1_always_embargoed_witness :
    ((⟨7, "v", "5.el8.p1"⟩ : Build) ∈ [(⟨7, "v", "5.el8.p1"⟩ : Build)]
      ∧ (∀ t ∈ (fun _ : Nat => ([] : List String)) 7, pyEndsWith t "-released" = false)
      ∧ pyEndsWith "5.el8.p1" ".p1" = true)
    ∧ (7 : Nat) ∈ find_embargoed_builds (fun _ => []) (fun _ => [⟨3, "x"⟩])
        [⟨7, "v", "5.el8.p1"⟩] [[⟨101, 7, "x86_64", [], "d"⟩]] :=
  ⟨⟨by decide, by decide, by decide⟩,
    C2_p1_always_embargoed (fun _ => []) (fun _ => [⟨3, "x"⟩])
      [⟨7, "v", "5.el8.p1"⟩] [[⟨101, 7, "x86_64", [], "d"⟩]] ⟨7, "v", "5.el8.p1"⟩
      (by decide) (by decide) (by decide)⟩

/-- C3: a candidate build (all build ids distinct) with no `-released` tag
whose release ends with `.p0` is embargoed iff some archive of that build
contains an rpm whose release has `.p1` in it and whose own build has no
`-released` tag. -/
theorem C3_p0_transitive_iff (bt : Nat → List String) (rpmsOf : Nat → List Rpm)
    (builds : List Build) (archives_list : List (List Archive)) (b : Build)
    (hnd : (builds.map Build.id).Nodup) (hb : b ∈ builds)
    (ht : ∀ t ∈ bt b.id, pyEndsWith t "-released" = false)
    (hp0 : pyEndsWith b.release ".p0" = true) :
    b.id ∈ find_embargoed_builds bt rpmsOf builds archives_list ↔
      ∃ ar ∈ archives_list.flatten, ar.build_id = b.id ∧
        ∃ r ∈ rpmsOf ar.id, pyIn ".p1" r.release = true ∧
          ∀ t ∈ bt r.build_id, pyEndsWith t "-released" = false := by
  have hship : shipped bt b.id = false := (shipped_eq_false_iff bt b.id).mpr ht
  have hnotdirect : b.id ∉ directEmbargoedOf bt builds := by
    intro hmem
    rcases (mem_directEmbargoedOf bt builds b.id).mp hmem with ⟨b', hb', hb'p1, hbid⟩
    have hb'b : b' = b :=
      build_id_inj hnd ((mem_suspectsOf bt builds b').mp hb').1 hb hbid
    rw [hb'b] at hb'p1
    rw [pyEndsWith_p0_not_p1 b.release hp0] at hb'p1
    cases hb'p1
  rw [find_embargoed_builds,
    embargoLoop_mem bt rpmsOf b.id _ [] _ (cacheOK_nil bt)]
  constructor
  · rintro (hx | ⟨ar, har, hbid, r, hr, hrp, hrs⟩)
    · exact absurd hx hnotdirect
    · refine ⟨ar, ((mem_suspectArchivesOf bt builds archives_list ar).mp har).1, hbid,
        r, hr, hrp, (shipped_eq_false_iff bt r.build_id).mp hrs⟩
  · rintro ⟨ar, har, hbid, r, hr, hrp, hrt⟩
    refine Or.inr ⟨ar, ?_, hbid, r, hr, hrp, (shipped_eq_false_iff bt r.build_id).mpr hrt⟩
    exact (mem_suspectArchivesOf bt builds archives_list ar).mpr
      ⟨har, b, (mem_suspectsOf bt builds b).mpr ⟨hb, hship⟩, hnotdirect, hbid.symm ▸ rfl⟩

/-- C3 witness. -/
theorem C3_p0_transitive_iff_witness :
    (([(⟨5, "v", "3.p0"⟩ : Build)].map Build.id).Nodup
      ∧ (⟨5, "v", "3.p0"⟩ : Build) ∈ [(⟨5, "v", "3.p0"⟩ : Build)]
      ∧ (∀ t ∈ (fun _ : Nat => ([] : List String)) 5, pyEndsWith t "-released" = false)
      ∧ pyEndsWith "3.p0" ".p0" = true)
    ∧ ((5 : Nat) ∈ find_embargoed_builds (fun _ => []) (fun _ => [⟨10, "7.p1"⟩])
          [⟨5, "v", "3.p0"⟩] [[⟨101, 5, "x86_64", ["r:l"], "sha256:aa"⟩]] ↔
        ∃ ar ∈ [[(⟨101, 5, "x86_64", ["r:l"], "sha256:aa"⟩ : Archive)]].flatten,
          ar.build_id = 5 ∧
          ∃ r ∈ (fun _ : Nat => [(⟨10, "7.p1"⟩ : Rpm)]) ar.id, pyIn ".p1" r.release = true ∧
            ∀ t ∈ (fun _ : Nat => ([] : List String)) r.build_id,
              pyEndsWith t "-released" = false) :=
  ⟨⟨by decide, by decide, by decide, by decide⟩,
    C3_p0_transitive_iff (fun _ => []) (fun _ => [⟨10, "7.p1"⟩])
      [⟨5, "v", "3.p0"⟩] [[⟨101, 5, "x86_64", ["r:l"], "sha256:aa"⟩]] ⟨5, "v", "3.p0"⟩
      (by decide) (by decide) (by decide) (by decide)⟩

/-- C4 (amended): over one `find_embargoed_builds` run the distinct rpm
build ids passed to the shipped-tag query form a subset of the distinct
`.p1` rpm build ids among the suspect builds' rpm records, so the number
of distinct queries never exceeds that count (each id is queried at most
once in the distinct count); equality can fail, because a build whose rpm
list hits a cached not-shipped id returns early without querying its
remaining `.p1` rpms. -/
theorem C4_amended_queries_subset (bt : Nat → List String) (rpmsOf : Nat → List Rpm)
    (builds : List Build) (archives_list : List (List Archive)) :
    (embargoQueries bt rpmsOf builds archives_list).toFinset ⊆
      p1RpmIds bt rpmsOf builds archives_list ∧
    (embargoQueries bt rpmsOf builds archives_list).dedup.length ≤
      (p1RpmIds bt rpmsOf builds archives_list).card := by
  have hsub : (embargoQueries bt rpmsOf builds archives_list).toFinset ⊆
      p1RpmIds bt rpmsOf builds archives_list := by
    intro q hq
    rw [List.mem_toFinset, embargoQueries] at hq
    rcases embargoLoop_queries bt rpmsOf _ [] _ q hq with ⟨ar, har, r, hr, hrp, hrq⟩
    rw [p1RpmIds, List.mem_toFinset]
    refine List.mem_flatten.mpr ⟨_, List.mem_map.mpr ⟨ar, har, rfl⟩, ?_⟩
    exact List.mem_map.mpr ⟨r, List.mem_filter.mpr ⟨hr, hrp⟩, hrq⟩
  refine ⟨hsub, ?_⟩
  rw [← List.card_toFinset]
  exact Finset.card_le_card hsub

/-- C4 counterexample: two `.p0` suspect builds; the first bundles rpm 10
(release `3.p1`, unshipped), the second bundles rpms 10 and 11 (both
`.p1`).  Processing the second build, `has_unshipped_rpms` sees rpm 10
cached as not shipped and returns immediately, so rpm 11 is never
queried: 1 distinct query issued, but 2 distinct `.p1` rpm build ids. -/
theorem C4_counterexample :
    (embargoQueries (fun _ => [])
        (fun i => if i = 101 then [⟨10, "3.p1"⟩]
          else if i = 102 then [⟨10, "3.p1"⟩, ⟨11, "4.p1"⟩] else [])
        [⟨1, "v", "1.p0"⟩, ⟨2, "v", "1.p0"⟩]
        [[⟨101, 1, "x86_64", ["r:l"], "sha256:aa"⟩],
         [⟨102, 2, "x86_64", ["r:l"], "sha256:bb"⟩]]).dedup.length = 1
    ∧ (p1RpmIds (fun _ => [])
        (fun i => if i = 101 then [⟨10, "3.p1"⟩]
          else if i = 102 then [⟨10, "3.p1"⟩, ⟨11, "4.p1"⟩] else [])
        [⟨1, "v", "1.p0"⟩, ⟨2, "v", "1.p0"⟩]
        [[⟨101, 1, "x86_64", ["r:l"], "sha256:aa"⟩],
         [⟨102, 2, "x86_64", ["r:l"], "sha256:bb"⟩]]).card = 2 :=
  ⟨by decide, by decide⟩

theorem processArchives_break (pub : Bool) (emb : Finset Nat) (b : Build) (tagName : String) :
    ∀ (good : List Archive) (bad : Archive) (rest : List Archive) (mir : Mir),
      (∀ a ∈ good, goodPullspec a = true ∧ pyStartsWith a.digest "sha256:" = true) →
      goodPullspec bad = false →
      processArchives pub emb b tagName (good ++ bad :: rest) mir =
        .ok (insertEntries pub emb b tagName good mir, true) := by
  intro good
  induction good with
  | nil =>
    intro bad rest mir _ hbad
    rw [List.nil_append]
    simp [processArchives, hbad, insertEntries]
  | cons a good' ih =>
    intro bad rest mir hgood hbad
    have ha := hgood a (List.mem_cons_self a good')
    rw [List.cons_append]
    rw [processArchives, ha.1, ha.2]
    simp only [Bool.not_true, Bool.false_eq_true, if_false]
    rw [ih bad rest (archiveStep pub emb b tagName mir a)
      (fun x hx => hgood x (List.mem_cons_of_mem a hx)) hbad]
    rfl

theorem processArchives_raise (pub : Bool) (emb : Finset Nat) (b : Build) (tagName : String) :
    ∀ (good : List Archive) (bad : Archive) (rest : List Archive) (mir : Mir),
      (∀ a ∈ good, goodPullspec a = true ∧ pyStartsWith a.digest "sha256:" = true) →
      goodPullspec bad = true → pyStartsWith bad.digest "sha256:" = false →
      processArchives pub emb b tagName (good ++ bad :: rest) mir =
        .error (.valueError bad.digest) := by
  intro good
  induction good with
  | nil =>
    intro bad rest mir _ hbadps hbaddg
    rw [List.nil_append]
    rw [processArchives, hbadps, hbaddg]
    rfl
  | cons a good' ih =>
    intro bad rest mir hgood hbadps hbaddg
    have ha := hgood a (List.mem_cons_self a good')
    rw [List.cons_append]
    rw [processArchives, ha.1, ha.2]
    simp only [Bool.not_true, Bool.false_eq_true, if_false]
    exact ih bad rest (archiveStep pub emb b tagName mir a)
      (fun x hx => hgood x (List.mem_cons_of_mem a hx)) hbadps hbaddg

/-- C5 counterexample: an image whose first archive is valid and whose
second archive has an empty pullspec list.  The image is recorded as a
failure, yet the entry inserted for the first archive stays in the
`x86_64` map under the image's display tag `foo` — the claim's "no
mirror-map entry for that image appears in any architecture's map" is
false. -/
theorem C5_counterexample :
    (processImages false ∅
        [⟨"ose-foo", some ⟨1, "v1", "r1"⟩,
          [⟨100, 1, "x86_64", ["reg/foo:lat"], "sha256:aa"⟩,
           ⟨101, 1, "s390x", [], "sha256:bb"⟩]⟩]
        ⟨[], [], []⟩).map
      (fun st => (st.failures, dlookup "foo" ((dlookup "x86_64" st.mirroring).getD [])))
    = .ok (["ose-foo"], some ⟨"v1", "r1", "reg/foo:lat", "sha256:aa"⟩) := by
  rfl

/-- C5 (amended): for an image whose resolved build exists and whose
archive list has a first invalid archive (empty pullspecs or last
pullspec without a colon) after a prefix of valid archives, the image is
recorded as a failure, the invalid archive and all archives after it
contribute no mirror entries — the map receives exactly the valid
prefix's entries — and processing continues with the remaining images. -/
theorem C5_amended_soft_failure (pub : Bool) (emb : Finset Nat) (img : ImgInput)
    (st : RState) (b : Build) (good : List Archive) (bad : Archive) (rest : List Archive)
    (hbuild : img.build = some b)
    (harch : img.archives = good ++ bad :: rest)
    (hgood : ∀ a ∈ good, goodPullspec a = true ∧ pyStartsWith a.digest "sha256:" = true)
    (hbad : goodPullspec bad = false) :
    processOne pub emb img st =
      .ok ⟨insertEntries pub emb b (tagNameOf img.name) good st.mirroring,
           st.failures ++ [img.name], st.successes⟩
    ∧ ∀ more : List ImgInput,
        processImages pub emb (img :: more) st =
          processImages pub emb more
            ⟨insertEntries pub emb b (tagNameOf img.name) good st.mirroring,
             st.failures ++ [img.name], st.successes⟩ := by
  have hne : ¬ img.archives.isEmpty = true := by
    rw [harch]; cases good <;> simp
  have h1 : processOne pub emb img st =
      .ok ⟨insertEntries pub emb b (tagNameOf img.name) good st.mirroring,
           st.failures ++ [img.name], st.successes⟩ := by
    rw [processOne, hbuild]
    simp only [if_neg hne]
    rw [harch, processArchives_break pub emb b (tagNameOf img.name) good bad rest
      st.mirroring hgood hbad]
  refine ⟨h1, fun more => ?_⟩
  rw [processImages, h1]

/-- C5 witness. -/
theorem C5_amended_soft_failure_witness :
    ((⟨"ose-foo", some ⟨1, "v1", "r1"⟩,
        [⟨100, 1, "x86_64", ["reg/foo:lat"], "sha256:aa"⟩,
         ⟨101, 1, "s390x", [], "sha256:bb"⟩]⟩ : ImgInput).build = some ⟨1, "v1", "r1"⟩
      ∧ goodPullspec ⟨101, 1, "s390x", [], "sha256:bb"⟩ = false)
    ∧ processOne false ∅
        ⟨"ose-foo", some ⟨1, "v1", "r1"⟩,
          [⟨100, 1, "x86_64", ["reg/foo:lat"], "sha256:aa"⟩,
           ⟨101, 1, "s390x", [], "sha256:bb"⟩]⟩ ⟨[], [], []⟩
      = .ok ⟨insertEntries false ∅ ⟨1, "v1", "r1"⟩ (tagNameOf "ose-foo")
              [⟨100, 1, "x86_64", ["reg/foo:lat"], "sha256:aa"⟩] [],
             [] ++ ["ose-foo"], []⟩ :=
  ⟨⟨by decide, by decide⟩,
    (C5_amended_soft_failure false ∅
      ⟨"ose-foo", some ⟨1, "v1", "r1"⟩,
        [⟨100, 1, "x86_64", ["reg/foo:lat"], "sha256:aa"⟩,
         ⟨101, 1, "s390x", [], "sha256:bb"⟩]⟩ ⟨[], [], []⟩ ⟨1, "v1", "r1"⟩
      [⟨100, 1, "x86_64", ["reg/foo:lat"], "sha256:aa"⟩]
      ⟨101, 1, "s390x", [], "sha256:bb"⟩ [] rfl rfl
      (by intro a ha; fin_cases ha; exact ⟨by decide, by decide⟩) (by decide)).1⟩

/-- C8: when an image with a resolved build reaches an archive whose
pullspecs are valid but whose manifest digest does not start with
`sha256:`, the whole run aborts with the raised error — whatever images
remain are not processed and no per-image soft failure is recorded. -/
theorem C8_bad_digest_aborts (pub : Bool) (emb : Finset Nat) (img : ImgInput)
    (st : RState) (b : Build) (good : List Archive) (bad : Archive) (rest : List Archive)
    (hbuild : img.build = some b)
    (harch : img.archives = good ++ bad :: rest)
    (hgood : ∀ a ∈ good, goodPullspec a = true ∧ pyStartsWith a.digest "sha256:" = true)
    (hbadps : goodPullspec bad = true)
    (hbaddg : pyStartsWith bad.digest "sha256:" = false) :
    ∀ more : List ImgInput,
      processImages pub emb (img :: more) st = .error (.valueError bad.digest) := by
  have hne : ¬ img.archives.isEmpty = true := by
    rw [harch]; cases good <;> simp
  have h1 : processOne pub emb img st = .error (.valueError bad.digest) := by
    rw [processOne, hbuild]
    simp only [if_neg hne]
    rw [harch, processArchives_raise pub emb b (tagNameOf img.name) good bad rest
      st.mirroring hgood hbadps hbaddg]
  intro more
  rw [processImages, h1]

/-- C8 witness. -/
theorem C8_bad_digest_aborts_witness :
    ((⟨"ose-bar", some ⟨2, "v2", "r2"⟩,
        [⟨200, 2, "x86_64", ["reg/bar:lat"], "md5:zz"⟩]⟩ : ImgInput).build = some ⟨2, "v2", "r2"⟩
      ∧ goodPullspec ⟨200, 2, "x86_64", ["reg/bar:lat"], "md5:zz"⟩ = true
      ∧ pyStartsWith "md5:zz" "sha256:" = false)
    ∧ processImages false ∅
        [⟨"ose-bar", some ⟨2, "v2", "r2"⟩, [⟨200, 2, "x86_64", ["reg/bar:lat"], "md5:zz"⟩]⟩,
         ⟨"ose-baz", none, []⟩]
        ⟨[], [], []⟩ = .error (.valueError "md5:zz") :=
  ⟨⟨by decide, by decide, by decide⟩,
    C8_bad_digest_aborts false ∅
      ⟨"ose-bar", some ⟨2, "v2", "r2"⟩, [⟨200, 2, "x86_64", ["reg/bar:lat"], "md5:zz"⟩]⟩
      ⟨[], [], []⟩ ⟨2, "v2", "r2"⟩ [] ⟨200, 2, "x86_64", ["reg/bar:lat"], "md5:zz"⟩ []
      rfl rfl (by intro a ha; cases ha) (by decide) (by decide)
      [⟨"ose-baz", none, []⟩]⟩

/-- C6: for a key whose map holds the `cli` tag and whose reference key is
present, every display tag of the reference map missing from this key's
map yields a substitute entry pointing at this key's own `cli` entry's
destination, and all substitutes come after the native tag entries. -/
theorem C6_reference_fallback (orgrepo : String) (pub : Bool) (mirroring : Mir)
    (key : String) (m refm : List (String × MEntry)) (cv : MEntry) (t : String)
    (hm : dlookup key mirroring = some m)
    (hcli : dlookup "cli" m = some cv)
    (href : dlookup (refKeyOf key) mirroring = some refm)
    (ht : t ∈ refm.map Prod.fst) (htm : t ∉ m.map Prod.fst) :
    ∃ extras : List TagEntry,
      genTagList orgrepo pub mirroring key = .ok (nativeTags orgrepo m ++ extras)
      ∧ (⟨t, "DockerImage", buildDestName orgrepo cv.digest⟩ : TagEntry) ∈ extras
      ∧ ∀ e ∈ nativeTags orgrepo m, e.name ∈ m.map Prod.fst := by
  refine ⟨((refm.map Prod.fst).filter fun s => !(decide (s ∈ m.map Prod.fst))).map
      (fun s => ⟨s, "DockerImage", buildDestName orgrepo cv.digest⟩), ?_, ?_, ?_⟩
  · simp only [genTagList, hm, hcli, href]
  · refine List.mem_map.mpr ⟨t, List.mem_filter.mpr ⟨ht, ?_⟩, rfl⟩
    rw [Bool.not_eq_true', decide_eq_false_iff_not]
    exact htm
  · intro e he
    rcases List.mem_map.mp he with ⟨p, hp, hpe⟩
    rw [← hpe]
    exact List.mem_map.mpr ⟨p, hp, rfl⟩

/-- C6 witness. -/
theorem C6_reference_fallback_witness :
    (dlookup "ppc64le" ([("x86_64", [("a", (⟨"v", "r", "s1", "sha256:d1"⟩ : MEntry)),
          ("b", ⟨"v", "r", "s2", "sha256:d2"⟩), ("cli", ⟨"v", "r", "s3", "sha256:d3"⟩)]),
        ("ppc64le", [("a", ⟨"v", "r", "s4", "sha256:d4"⟩),
          ("cli", ⟨"v", "r", "s5", "sha256:d5"⟩)])] : Mir)
        = some [("a", ⟨"v", "r", "s4", "sha256:d4"⟩), ("cli", ⟨"v", "r", "s5", "sha256:d5"⟩)]
      ∧ ("b" : String) ∉ ([("a", (⟨"v", "r", "s4", "sha256:d4"⟩ : MEntry)),
          ("cli", ⟨"v", "r", "s5", "sha256:d5"⟩)].map Prod.fst))
    ∧ ∃ extras : List TagEntry,
        genTagList "org/repo" true
          [("x86_64", [("a", ⟨"v", "r", "s1", "sha256:d1"⟩),
            ("b", ⟨"v", "r", "s2", "sha256:d2"⟩), ("cli", ⟨"v", "r", "s3", "sha256:d3"⟩)]),
           ("ppc64le", [("a", ⟨"v", "r", "s4", "sha256:d4"⟩),
            ("cli", ⟨"v", "r", "s5", "sha256:d5"⟩)])] "ppc64le"
          = .ok (nativeTags "org/repo" [("a", ⟨"v", "r", "s4", "sha256:d4"⟩),
              ("cli", ⟨"v", "r", "s5", "sha256:d5"⟩)] ++ extras)
        ∧ (⟨"b", "DockerImage", buildDestName "org/repo" "sha256:d5"⟩ : TagEntry) ∈ extras
        ∧ ∀ e ∈ nativeTags "org/repo" [("a", (⟨"v", "r", "s4", "sha256:d4"⟩ : MEntry)),
            ("cli", ⟨"v", "r", "s5", "sha256:d5"⟩)],
            e.name ∈ [("a", (⟨"v", "r", "s4", "sha256:d4"⟩ : MEntry)),
              ("cli", ⟨"v", "r", "s5", "sha256:d5"⟩)].map Prod.fst :=
  ⟨⟨by decide, by decide⟩,
    C6_reference_fallback "org/repo" true
      [("x86_64", [("a", ⟨"v", "r", "s1", "sha256:d1"⟩),
        ("b", ⟨"v", "r", "s2", "sha256:d2"⟩), ("cli", ⟨"v", "r", "s3", "sha256:d3"⟩)]),
       ("ppc64le", [("a", ⟨"v", "r", "s4", "sha256:d4"⟩),
        ("cli", ⟨"v", "r", "s5", "sha256:d5"⟩)])] "ppc64le"
      [("a", ⟨"v", "r", "s4", "sha256:d4"⟩), ("cli", ⟨"v", "r", "s5", "sha256:d5"⟩)]
      [("a", ⟨"v", "r", "s1", "sha256:d1"⟩), ("b", ⟨"v", "r", "s2", "sha256:d2"⟩),
        ("cli", ⟨"v", "r", "s3", "sha256:d3"⟩)]
      ⟨"v", "r", "s5", "sha256:d5"⟩ "b"
      (by decide) (by decide) (by decide) (by decide) (by decide)⟩

/-- C7: when a key's map lacks the `cli` display tag, the outcome depends
on the flags: with public_upstreams configured and a public key, the tag
list is produced (native tags only, hence without a `cli` tag and without
substitutions); otherwise the run raises `DoozerFatalError`. -/
theorem C7_missing_cli_policy (orgrepo : String) (pub : Bool) (mirroring : Mir)
    (key : String) (m : List (String × MEntry))
    (hm : dlookup key mirroring = some m)
    (hcli : dlookup "cli" m = none) :
    (pub = true → pyEndsWith key "-priv" = false →
      genTagList orgrepo pub mirroring key = .ok (nativeTags orgrepo m)
      ∧ ∀ e ∈ nativeTags orgrepo m, e.name ≠ "cli")
    ∧ ((pub = false ∨ pyEndsWith key "-priv" = true) →
      genTagList orgrepo pub mirroring key = .error (.fatal key)) := by
  constructor
  · intro hpub hpriv
    constructor
    · simp only [genTagList, hm, hcli, hpub, hpriv]
      rfl
    · intro e he
      rcases List.mem_map.mp he with ⟨p, hp, hpe⟩
      rw [← hpe]
      exact fun hc => dlookup_none hcli p hp hc
  · intro hdis
    simp only [genTagList, hm, hcli]
    rcases hdis with hpub | hpriv
    · rw [hpub]
      rfl
    · rw [hpriv]
      simp

/-- C7 witness. -/
theorem C7_missing_cli_policy_witness :
    (dlookup "s390x" ([("s390x", [("a", (⟨"v", "r", "s1", "sha256:d1"⟩ : MEntry))])] : Mir)
        = some [("a", ⟨"v", "r", "s1", "sha256:d1"⟩)]
      ∧ dlookup "cli" [("a", (⟨"v", "r", "s1", "sha256:d1"⟩ : MEntry))] = none)
    ∧ (genTagList "org/repo" true [("s390x", [("a", ⟨"v", "r", "s1", "sha256:d1"⟩)])] "s390x"
        = .ok (nativeTags "org/repo" [("a", ⟨"v", "r", "s1", "sha256:d1"⟩)])
      ∧ ∀ e ∈ nativeTags "org/repo" [("a", (⟨"v", "r", "s1", "sha256:d1"⟩ : MEntry))],
          e.name ≠ "cli") :=
  ⟨⟨by decide, by decide⟩,
    (C7_missing_cli_policy "org/repo" true
      [("s390x", [("a", ⟨"v", "r", "s1", "sha256:d1"⟩)])] "s390x"
      [("a", ⟨"v", "r", "s1", "sha256:d1"⟩)] (by decide) (by decide)).1 rfl (by decide)⟩

/-- C10: a non-reference key whose map holds `cli` while the reference key
is absent from the mirroring map makes the fallback computation perform an
unguarded dict lookup of the reference key, so generation fails with a
key-lookup error instead of producing that key's tag list. -/
theorem C10_missing_reference_key (orgrepo : String) (pub : Bool) (mirroring : Mir)
    (key : String) (m : List (String × MEntry)) (cv : MEntry)
    (hm : dlookup key mirroring = some m)
    (hcli : dlookup "cli" m = some cv)
    (href : dlookup (refKeyOf key) mirroring = none) :
    key ≠ refKeyOf key
    ∧ genTagList orgrepo pub mirroring key = .error (.keyError (refKeyOf key)) := by
  constructor
  · intro hk
    rw [← hk] at href
    rw [href] at hm
    cases hm
  · simp only [genTagList, hm, hcli, href]

/-- C10 witness. -/
theorem C10_missing_reference_key_witness :
    (dlookup "ppc64le" ([("ppc64le", [("cli", (⟨"v", "r", "s5", "sha256:d5"⟩ : MEntry))])] : Mir)
        = some [("cli", ⟨"v", "r", "s5", "sha256:d5"⟩)]
      ∧ dlookup "cli" [("cli", (⟨"v", "r", "s5", "sha256:d5"⟩ : MEntry))]
          = some ⟨"v", "r", "s5", "sha256:d5"⟩
      ∧ dlookup (refKeyOf "ppc64le")
          ([("ppc64le", [("cli", (⟨"v", "r", "s5", "sha256:d5"⟩ : MEntry))])] : Mir) = none)
    ∧ ("ppc64le" : String) ≠ refKeyOf "ppc64le"
    ∧ genTagList "org/repo" false [("ppc64le", [("cli", ⟨"v", "r", "s5", "sha256:d5"⟩)])]
        "ppc64le" = .error (.keyError (refKeyOf "ppc64le")) :=
  ⟨⟨by decide, by decide, by decide⟩,
    C10_missing_reference_key "org/repo" false
      [("ppc64le", [("cli", ⟨"v", "r", "s5", "sha256:d5"⟩)])] "ppc64le"
      [("cli", ⟨"v", "r", "s5", "sha256:d5"⟩)] ⟨"v", "r", "s5", "sha256:d5"⟩
      (by decide) (by decide) (by decide)⟩

theorem listHasSub_single_false {c0 : Char} :
    ∀ l : List Char, listHasSub [c0] l = false → ∀ c ∈ l, c ≠ c0 := by
  intro l
  induction l with
  | nil =>
    intro _ c hc
    cases hc
  | cons a rest ih =>
    intro h c hc
    rw [listHasSub, Bool.or_eq_false_iff] at h
    rcases List.mem_cons.mp hc with hcc | hcc
    · intro hceq
      have hac : a = c0 := hcc.symm.trans hceq
      have : listStartsWith [c0] (a :: rest) = true := by
        rw [listStartsWith, hac]
        simp [listStartsWith]
      rw [h.1] at this
      cases this
    · exact ih h.2 c hcc

/-- C9 counterexample: two distinct digests, both starting with `sha256:`,
that map to the same destination, because replacing `:` with `-` merges
`sha256:a:b` and `sha256:a-b`.  The claim's unconditional injectivity on
distinct digests is false. -/
theorem C9_counterexample :
    ("sha256:a:b" : String) ≠ "sha256:a-b"
    ∧ buildDestName "org/repo" "sha256:a:b" = buildDestName "org/repo" "sha256:a-b" :=
  ⟨by decide, by decide⟩

/-- C9 (amended): the destination mapping is deterministic, maps
`sha256:deadbeef` to the tag `sha256-deadbeef`, and is injective on
digests of the form `sha256:` followed by a colon-free string (which
covers the hex digests the run receives); it is not injective on
arbitrary distinct digest strings. -/
theorem C9_amended_dest_name :
    (∀ o d1 d2 : String, d1 = d2 → buildDestName o d1 = buildDestName o d2)
    ∧ (∀ o : String,
        buildDestName o "sha256:deadbeef" = "quay.io/" ++ o ++ (":" ++ "sha256-deadbeef"))
    ∧ (∀ o h1 h2 : String, pyIn ":" h1 = false → pyIn ":" h2 = false →
        buildDestName o ("sha256:" ++ h1) = buildDestName o ("sha256:" ++ h2) → h1 = h2) := by
  have hmap : ∀ h : String, pyIn ":" h = false →
      ("sha256:" ++ h).data.map (fun c => if c = ':' then '-' else c)
        = "sha256-".data ++ h.data := by
    intro h hc
    rw [String.data_append, List.map_append]
    have h1 : "sha256:".data.map (fun c => if c = ':' then '-' else c) = "sha256-".data := by
      decide
    have h2 : h.data.map (fun c => if c = ':' then '-' else c) = h.data := by
      have hnc : ∀ c ∈ h.data, c ≠ ':' := listHasSub_single_false h.data hc
      have : h.data.map (fun c => if c = ':' then '-' else c) = h.data.map id :=
        List.map_congr_left (fun a ha => by rw [if_neg (hnc a ha)]; rfl)
      rw [this, List.map_id]
    rw [h1, h2]
  refine ⟨fun o d1 d2 h => by rw [h], fun o => ?_, fun o h1 h2 hc1 hc2 heq => ?_⟩
  · rw [buildDestName]
    have : String.mk ("sha256:deadbeef".data.map fun c => if c = ':' then '-' else c)
        = "sha256-deadbeef" := by decide
    rw [this]
    rw [String.append_assoc]
  · rw [buildDestName, buildDestName] at heq
    have hdata := congrArg String.data heq
    rw [String.data_append, String.data_append] at hdata
    have htail : (String.mk (("sha256:" ++ h1).data.map fun c => if c = ':' then '-' else c)).data
        = (String.mk (("sha256:" ++ h2).data.map fun c => if c = ':' then '-' else c)).data :=
      List.append_cancel_left hdata
    have h1d : (String.mk (("sha256:" ++ h1).data.map fun c => if c = ':' then '-' else c)).data
        = "sha256-".data ++ h1.data := hmap h1 hc1
    have h2d : (String.mk (("sha256:" ++ h2).data.map fun c => if c = ':' then '-' else c)).data
        = "sha256-".data ++ h2.data := hmap h2 hc2
    rw [h1d, h2d] at htail
    exact congrArg String.mk (List.append_cancel_left htail)

/-- C9 witness. -/
theorem C9_amended_dest_name_witness :
    pyIn ":" "deadbeef" = false
    ∧ buildDestName "org/repo" "sha256:deadbeef"
        = "quay.io/" ++ "org/repo" ++ (":" ++ "sha256-deadbeef")
    ∧ ("deadbeef" : String) = "deadbeef" :=
  ⟨by decide, C9_amended_dest_name.2.1 "org/repo",
    C9_amended_dest_name.2.2 "org/repo" "deadbeef" "deadbeef" (by decide) (by decide) rfl⟩

end Doozer
